import Mathlib

/-!
Verification of the `storage` package of hybridbuffer-storage.

The repository consists of a single Go source file, `interface.go`, declaring
the `Backend` interface, together with the README whose Interface section
lists the package's full declaration set: `Backend`, `BackendReaderAt` and
`BackendSeeker`.  We embed the declarations structurally (types, method
names, signatures) and embed the behavioural contract the documentation
imposes on conforming backends as an executable reference model.
-/

set_option autoImplicit false

namespace Storage

/-! ### Static model: Go types and interface declarations -/

/-- Go types occurring in the package's signatures: the slice and scalar
types used by the `io` package methods, the built-in `error` type, and the
four `io` interface types that the storage operations return. -/
inductive GoType
  | sliceByte
  | goInt
  | goInt64
  | goError
  | ioWriteCloser
  | ioReadCloser
  | ioReaderAt
  | ioReadSeeker
deriving DecidableEq, Repr

/-- A method signature: name, parameter types and result types. -/
structure GoMethod where
  name : String
  params : List GoType
  results : List GoType
deriving DecidableEq, Repr

/-- A Go interface declaration: its name, the interfaces it embeds and the
methods it declares itself. -/
structure GoInterface where
  name : String
  embeds : List String
  methods : List GoMethod
deriving DecidableEq, Repr

/-- Method set of `io.WriteCloser` (Go standard library `io` package):
`Write(p []byte) (n int, err error)` and `Close() error`. -/
def ioWriteCloserMethods : List GoMethod :=
  [⟨"Write", [GoType.sliceByte], [GoType.goInt, GoType.goError]⟩,
   ⟨"Close", [], [GoType.goError]⟩]

/-- Method set of `io.ReadCloser` (Go standard library `io` package):
`Read(p []byte) (n int, err error)` and `Close() error`. -/
def ioReadCloserMethods : List GoMethod :=
  [⟨"Read", [GoType.sliceByte], [GoType.goInt, GoType.goError]⟩,
   ⟨"Close", [], [GoType.goError]⟩]

/-- Method set of `io.ReaderAt` (Go standard library `io` package): the
single method `ReadAt(p []byte, off int64) (n int, err error)`. -/
def ioReaderAtMethods : List GoMethod :=
  [⟨"ReadAt", [GoType.sliceByte, GoType.goInt64], [GoType.goInt, GoType.goError]⟩]

/-- Method set of `io.ReadSeeker` (Go standard library `io` package):
`Read(p []byte) (n int, err error)` and
`Seek(offset int64, whence int) (int64, error)`. -/
def ioReadSeekerMethods : List GoMethod :=
  [⟨"Read", [GoType.sliceByte], [GoType.goInt, GoType.goError]⟩,
   ⟨"Seek", [GoType.goInt64, GoType.goInt], [GoType.goInt64, GoType.goError]⟩]

/-- Method set of a `GoType`, for the `io` interface types; the scalar and
slice types have no methods. -/
def methodSet : GoType → List GoMethod
  | GoType.ioWriteCloser => ioWriteCloserMethods
  | GoType.ioReadCloser => ioReadCloserMethods
  | GoType.ioReaderAt => ioReaderAtMethods
  | GoType.ioReadSeeker => ioReadSeekerMethods
  | _ => []

/-- Whether a Go type's method set contains a `Close() error` method, i.e.
whether a value of the type can be released through the type itself. -/
def hasClose (t : GoType) : Bool :=
  (methodSet t).any fun m => m.name == "Close" && m.params.isEmpty

/-- The `Backend` interface, transcribed from `interface.go`:
`Create() (io.WriteCloser, error)`, `Open() (io.ReadCloser, error)`,
`Remove() error`. -/
def Backend : GoInterface :=
  ⟨"Backend", [],
   [⟨"Create", [], [GoType.ioWriteCloser, GoType.goError]⟩,
    ⟨"Open", [], [GoType.ioReadCloser, GoType.goError]⟩,
    ⟨"Remove", [], [GoType.goError]⟩]⟩

/-- The `BackendReaderAt` interface, transcribed from the README's
Interface listing: embeds `Backend` and adds
`OpenReaderAt() (io.ReaderAt, error)`. -/
def BackendReaderAt : GoInterface :=
  ⟨"BackendReaderAt", ["Backend"],
   [⟨"OpenReaderAt", [], [GoType.ioReaderAt, GoType.goError]⟩]⟩

/-- The `BackendSeeker` interface, transcribed from the README's Interface
listing: embeds `Backend` and adds `OpenSeeker() (io.ReadSeeker, error)`. -/
def BackendSeeker : GoInterface :=
  ⟨"BackendSeeker", ["Backend"],
   [⟨"OpenSeeker", [], [GoType.ioReadSeeker, GoType.goError]⟩]⟩

/-- A top-level declaration of the package. -/
inductive GoDecl
  | interfaceDecl (i : GoInterface)
  | errorTypeDecl (name : String)
  | constDecl (name : String)
  | varDecl (name : String)
  | funcDecl (name : String)
deriving DecidableEq, Repr

/-- Whether a declaration is an interface type declaration. -/
def GoDecl.isInterfaceDecl : GoDecl → Bool
  | GoDecl.interfaceDecl _ => true
  | _ => false

/-- The complete list of top-level declarations of package `storage`:
`interface.go` declares `Backend`, and the README's Interface listing adds
`BackendReaderAt` and `BackendSeeker`.  Nothing else is declared. -/
def storagePackageDecls : List GoDecl :=
  [GoDecl.interfaceDecl Backend,
   GoDecl.interfaceDecl BackendReaderAt,
   GoDecl.interfaceDecl BackendSeeker]

/-- The handle types returned by the contract operations, paired with the
operation that returns them: `Create` returns `io.WriteCloser`, `Open`
returns `io.ReadCloser`, `OpenReaderAt` returns `io.ReaderAt` and
`OpenSeeker` returns `io.ReadSeeker`. -/
def returnedHandleTypes : List (String × GoType) :=
  [("Create", GoType.ioWriteCloser),
   ("Open", GoType.ioReadCloser),
   ("OpenReaderAt", GoType.ioReaderAt),
   ("OpenSeeker", GoType.ioReadSeeker)]

end Storage

namespace Model

/-- Modelled from the spec: the error kinds of the contract's error
taxonomy that the behavioural claims mention (the repository implements no
backend, so failures are modelled by these kinds).  End-of-data is a
sentinel carried by read results, not an error. -/
inductive Err
  | notFound
  | notReady
  | invalidArgument
  | alreadyCreated
deriving DecidableEq, Repr

/-- Modelled from the spec: the four lifecycle states of a backend
instance, `UNCREATED → WRITING → READABLE → REMOVED`. -/
inductive Phase
  | uncreated
  | writing
  | readable
  | removed
deriving DecidableEq, Repr

/-- Modelled from the spec: a backend instance scoped to a single storage
location.  `buffer` holds the bytes written so far through the write
handle; `content` holds the durably stored bytes once the writer is
closed.  Bytes are modelled as `Nat`. -/
structure BackendState where
  phase : Phase
  buffer : List Nat
  content : List Nat
deriving DecidableEq, Repr

/-- The state of a fresh backend instance, before any `Create`. -/
def initial : BackendState := ⟨Phase.uncreated, [], []⟩

/-- Modelled from the spec: `Create` is only valid in `UNCREATED`; it
moves the instance to `WRITING` with an empty write buffer (re-entry is
backend-defined; this reference backend rejects it). -/
def Create (s : BackendState) : Except Err BackendState :=
  match s.phase with
  | Phase.uncreated => Except.ok ⟨Phase.writing, [], s.content⟩
  | _ => Except.error Err.alreadyCreated

/-- Modelled from the spec: writing through the write handle appends bytes
in sequence; only valid while the instance is in `WRITING`. -/
def write (s : BackendState) (bs : List Nat) : Except Err BackendState :=
  match s.phase with
  | Phase.writing => Except.ok ⟨Phase.writing, s.buffer ++ bs, s.content⟩
  | _ => Except.error Err.notReady

/-- Modelled from the spec: closing the write handle moves `WRITING` to
`READABLE`; all written bytes become the durable content. -/
def closeWriter (s : BackendState) : Except Err BackendState :=
  match s.phase with
  | Phase.writing => Except.ok ⟨Phase.readable, s.buffer, s.buffer⟩
  | _ => Except.error Err.notReady

/-- A sequential (or seekable) read handle: the immutable content it was
opened on and its own cursor. -/
structure ReadHandle where
  content : List Nat
  pos : Nat
deriving DecidableEq, Repr

/-- A random-access read handle: stateless with respect to position, every
read is addressed explicitly by offset. -/
structure ReaderAtHandle where
  content : List Nat
deriving DecidableEq, Repr

/-- Modelled from the spec: `Open` is only valid in `READABLE`; before any
`Create` or after `Remove` it fails not-found, while the write handle is
still open it fails not-ready.  The returned handle starts at offset
zero. -/
def Open (s : BackendState) : Except Err ReadHandle :=
  match s.phase with
  | Phase.readable => Except.ok ⟨s.content, 0⟩
  | Phase.writing => Except.error Err.notReady
  | _ => Except.error Err.notFound

/-- Modelled from the spec: `OpenReaderAt` has the same preconditions as
`Open` and returns a random-access handle over the stored content. -/
def OpenReaderAt (s : BackendState) : Except Err ReaderAtHandle :=
  match s.phase with
  | Phase.readable => Except.ok ⟨s.content⟩
  | Phase.writing => Except.error Err.notReady
  | _ => Except.error Err.notFound

/-- Modelled from the spec: `OpenSeeker` has the same preconditions as
`Open` and returns a seekable handle with its cursor at offset zero. -/
def OpenSeeker (s : BackendState) : Except Err ReadHandle :=
  match s.phase with
  | Phase.readable => Except.ok ⟨s.content, 0⟩
  | Phase.writing => Except.error Err.notReady
  | _ => Except.error Err.notFound

/-- Modelled from the spec: `Remove` is valid in `WRITING` or `READABLE`
and transitions to the terminal state `REMOVED`; the location ceases to
exist. -/
def Remove (s : BackendState) : Except Err BackendState :=
  match s.phase with
  | Phase.writing => Except.ok ⟨Phase.removed, [], []⟩
  | Phase.readable => Except.ok ⟨Phase.removed, [], []⟩
  | _ => Except.error Err.notFound

/-- Reading a sequential handle to the end: everything from its cursor on. -/
def readToEnd (h : ReadHandle) : List Nat := h.content.drop h.pos

/-- A single sequential read of up to `n` bytes: the bytes delivered, an
end-of-data flag (set when fewer than `n` bytes were available or the
cursor is at or past the end), and the advanced handle. -/
def read (h : ReadHandle) (n : Nat) : List Nat × Bool × ReadHandle :=
  let chunk := (h.content.drop h.pos).take n
  (chunk, decide (chunk.length < n) || decide (h.content.length ≤ h.pos),
   ⟨h.content, h.pos + chunk.length⟩)

/-- Modelled from the spec: a random-access read of `n` bytes at absolute
offset `off`.  A negative offset fails invalid-argument; otherwise the
available bytes of the requested range are returned together with an
end-of-data flag, set exactly when the range reaches at or past the end of
the content. -/
def readAt (h : ReaderAtHandle) (off : Int) (n : Nat) :
    Except Err (List Nat × Bool) :=
  if off < 0 then Except.error Err.invalidArgument
  else
    let chunk := (h.content.drop off.toNat).take n
    Except.ok (chunk,
      decide (chunk.length < n) || decide ((h.content.length : Int) ≤ off))

/-- The three seek origins of the contract: absolute, relative to the
current cursor, relative to the end. -/
inductive Whence
  | seekStart
  | seekCurrent
  | seekEnd
deriving DecidableEq, Repr

/-- The absolute offset a seek resolves to. -/
def seekTarget (h : ReadHandle) (off : Int) (w : Whence) : Int :=
  match w with
  | Whence.seekStart => off
  | Whence.seekCurrent => (h.pos : Int) + off
  | Whence.seekEnd => (h.content.length : Int) + off

/-- Modelled from the spec: seeking repositions the cursor; a negative
resulting offset fails invalid-argument; seeking past the end is permitted
and simply leaves the cursor there. -/
def seek (h : ReadHandle) (off : Int) (w : Whence) : Except Err ReadHandle :=
  if seekTarget h off w < 0 then Except.error Err.invalidArgument
  else Except.ok ⟨h.content, (seekTarget h off w).toNat⟩

/-- The full write-then-read pipeline of the conformance round-trip test:
create, write `B`, close the writer, open, read to end. -/
def roundTrip (B : List Nat) : Except Err (List Nat) := do
  let s1 ← Create initial
  let s2 ← write s1 B
  let s3 ← closeWriter s2
  let h ← Open s3
  pure (readToEnd h)

/-- An operation on a backend instance, for reasoning about arbitrary
call sequences. -/
inductive Op
  | createOp
  | writeOp (bs : List Nat)
  | closeOp
  | removeOp
deriving DecidableEq, Repr

/-- Apply one operation to a backend state. -/
def step (op : Op) (s : BackendState) : Except Err BackendState :=
  match op with
  | Op.createOp => Create s
  | Op.writeOp bs => write s bs
  | Op.closeOp => closeWriter s
  | Op.removeOp => Remove s

/-- Apply one operation to a backend state, keeping the state unchanged
when the operation fails. -/
def applyOp (s : BackendState) (op : Op) : BackendState :=
  match step op s with
  | Except.ok t2 => t2
  | Except.error _ => s

/-- Run a sequence of operations; a failing operation leaves the state
unchanged. -/
def runOps (ops : List Op) (s : BackendState) : BackendState :=
  ops.foldl applyOp s

/-- One read step of a concurrent reader: the pair is the handle's cursor
and the bytes it has collected so far; it reads up to `n` further bytes of
`B` and advances its own cursor only. -/
def readStep (B : List Nat) (h : Nat × List Nat) (n : Nat) : Nat × List Nat :=
  let chunk := (B.drop h.1).take n
  (h.1 + chunk.length, h.2 ++ chunk)

/-- Run an arbitrary interleaving of read steps over a pool of independent
read handles on content `B`: each schedule entry `(i, n)` makes handle `i`
read up to `n` bytes. -/
def runSched (B : List Nat) (hs : List (Nat × List Nat))
    (sched : List (Nat × Nat)) : List (Nat × List Nat) :=
  sched.foldl (fun acc q => acc.set q.1 (readStep B (acc.getD q.1 (0, [])) q.2)) hs

end Model

/-! ### Claims about the static declaration set -/

/-- C1: the contract is a base capability plus two optional extensions:
`Backend` exposes exactly the three zero-argument operations
`Create() (io.WriteCloser, error)`, `Open() (io.ReadCloser, error)` and
`Remove() error`; `BackendReaderAt` embeds `Backend` and adds
`OpenReaderAt() (io.ReaderAt, error)`; `BackendSeeker` embeds `Backend`
and adds `OpenSeeker() (io.ReadSeeker, error)`; all three are among the
repository's declarations. -/
theorem backend_capability_hierarchy :
    Storage.Backend.methods =
      [⟨"Create", [], [Storage.GoType.ioWriteCloser, Storage.GoType.goError]⟩,
       ⟨"Open", [], [Storage.GoType.ioReadCloser, Storage.GoType.goError]⟩,
       ⟨"Remove", [], [Storage.GoType.goError]⟩] ∧
    Storage.Backend.embeds = [] ∧
    Storage.BackendReaderAt.embeds = ["Backend"] ∧
    Storage.BackendReaderAt.methods =
      [⟨"OpenReaderAt", [], [Storage.GoType.ioReaderAt, Storage.GoType.goError]⟩] ∧
    Storage.BackendSeeker.embeds = ["Backend"] ∧
    Storage.BackendSeeker.methods =
      [⟨"OpenSeeker", [], [Storage.GoType.ioReadSeeker, Storage.GoType.goError]⟩] ∧
    Storage.GoDecl.interfaceDecl Storage.Backend ∈ Storage.storagePackageDecls ∧
    Storage.GoDecl.interfaceDecl Storage.BackendReaderAt ∈ Storage.storagePackageDecls ∧
    Storage.GoDecl.interfaceDecl Storage.BackendSeeker ∈ Storage.storagePackageDecls := by
  refine ⟨rfl, rfl, rfl, rfl, rfl, rfl, ?_, ?_, ?_⟩ <;> simp [Storage.storagePackageDecls]

/-- C7 counterexample: the claim that every returned handle type provides a
close operation is false: `OpenReaderAt` returns `io.ReaderAt`, whose
method set has no `Close`. -/
theorem not_every_handle_type_closable :
    ("OpenReaderAt", Storage.GoType.ioReaderAt) ∈ Storage.returnedHandleTypes ∧
    Storage.hasClose Storage.GoType.ioReaderAt = false := by
  constructor
  · simp [Storage.returnedHandleTypes]
  · decide

/-- C7 amended: the write handle from `Create` (`io.WriteCloser`) and the
read handle from `Open` (`io.ReadCloser`) each provide a close operation,
while the handle types returned by `OpenReaderAt` (`io.ReaderAt`) and
`OpenSeeker` (`io.ReadSeeker`) do not themselves include one. -/
theorem handle_close_operations :
    Storage.hasClose Storage.GoType.ioWriteCloser = true ∧
    Storage.hasClose Storage.GoType.ioReadCloser = true ∧
    Storage.hasClose Storage.GoType.ioReaderAt = false ∧
    Storage.hasClose Storage.GoType.ioReadSeeker = false := by
  decide

/-- C9: every top-level declaration of the package is an interface type
declaration; the package defines no error types, sentinel values,
constants, variables or functions, so no error kind is programmatically
distinguishable through a definition of this repository. -/
theorem no_error_types_or_constants :
    Storage.storagePackageDecls.all Storage.GoDecl.isInterfaceDecl = true := by
  decide

/-- C10: all three `Backend` operations take no input parameters, so the
storage location acted on is determined entirely by the backend instance
the method is invoked on. -/
theorem backend_methods_take_no_parameters :
    Storage.Backend.methods.all (fun m => m.params.isEmpty) = true := by
  decide

/-! ### Claims about the behavioural contract (reference model) -/

/-- C2: the write-then-read round-trip: for every byte sequence `B`,
including the empty one, Create, write `B`, close the writer, Open and
read to end yields exactly `B` — from offset zero, every byte exactly
once, no duplication, no gaps. -/
theorem write_then_read_roundtrip (B : List Nat) :
    Model.roundTrip B = Except.ok B := rfl

/-- C3: random access: for `0 ≤ o` and `o + n ≤ len B` a read of `n`
bytes at offset `o` returns exactly the slice `B[o:o+n]`; for `o ≥ len B`
the read returns the end-of-data signal with no bytes; for `o < 0` the
read fails invalid-argument. -/
theorem readerAt_random_access (B : List Nat) (o : Int) (n : Nat) :
    (0 ≤ o → o + n ≤ (B.length : Int) →
      (Model.readAt ⟨B⟩ o n).map Prod.fst =
        Except.ok ((B.take (o.toNat + n)).drop o.toNat)) ∧
    ((B.length : Int) ≤ o →
      Model.readAt ⟨B⟩ o n = Except.ok ([], true)) ∧
    (o < 0 →
      Model.readAt ⟨B⟩ o n = Except.error Model.Err.invalidArgument) := by
  refine ⟨?_, ?_, ?_⟩
  · intro h0 hn
    have hnot : ¬ o < 0 := by omega
    rw [Model.readAt, if_neg hnot]
    have hslice : (B.take (o.toNat + n)).drop o.toNat =
        (B.drop o.toNat).take (o.toNat + n - o.toNat) :=
      List.drop_take (o.toNat + n) o.toNat B
    rw [hslice]
    have harith : o.toNat + n - o.toNat = n := by omega
    rw [harith]
    rfl
  · intro hle
    have hnot : ¬ o < 0 := by omega
    have hlen : B.length ≤ o.toNat := by omega
    have hdrop : B.drop o.toNat = [] := List.drop_eq_nil_of_le hlen
    rw [Model.readAt, if_neg hnot]
    simp [hdrop, hle]
  · intro hneg
    rw [Model.readAt, if_pos hneg]

/-- C3 witness: at `B = [5,6,7,8]` the three clauses hold at the concrete
offsets `1`, `5` and `-2`. -/
theorem readerAt_random_access_witness :
    (Model.readAt ⟨[5, 6, 7, 8]⟩ 1 2).map Prod.fst =
      Except.ok (([5, 6, 7, 8].take ((1 : Int).toNat + 2)).drop (1 : Int).toNat) ∧
    Model.readAt ⟨[5, 6, 7, 8]⟩ 5 1 = Except.ok ([], true) ∧
    Model.readAt ⟨[5, 6, 7, 8]⟩ (-2) 1 = Except.error Model.Err.invalidArgument :=
  ⟨(readerAt_random_access [5, 6, 7, 8] 1 2).1 (by decide) (by decide),
   (readerAt_random_access [5, 6, 7, 8] 5 1).2.1 (by decide),
   (readerAt_random_access [5, 6, 7, 8] (-2) 1).2.2 (by decide)⟩

/-- C4: seeking: a handle positioned at offset `0 ≤ o ≤ len B` and then
read to end yields exactly `B[o:]`; seeking past `len B` succeeds and the
next read delivers no bytes with the end-of-data signal; any seek whose
resulting offset is negative fails invalid-argument. -/
theorem seek_then_read_correct (B : List Nat) (o : Int) :
    (0 ≤ o → o ≤ (B.length : Int) →
      (Model.seek ⟨B, 0⟩ o Model.Whence.seekStart).map Model.readToEnd =
        Except.ok (B.drop o.toNat)) ∧
    ((B.length : Int) < o → ∀ n,
      (Model.seek ⟨B, 0⟩ o Model.Whence.seekStart).map
          (fun h => ((Model.read h n).1, (Model.read h n).2.1)) =
        Except.ok ([], true)) ∧
    (∀ h off w, Model.seekTarget h off w < 0 →
      Model.seek h off w = Except.error Model.Err.invalidArgument) := by
  refine ⟨?_, ?_, ?_⟩
  · intro h0 hle
    have hnot : ¬ Model.seekTarget ⟨B, 0⟩ o Model.Whence.seekStart < 0 := by
      simp [Model.seekTarget]; omega
    rw [Model.seek, if_neg hnot]
    rfl
  · intro hgt n
    have hnot : ¬ Model.seekTarget ⟨B, 0⟩ o Model.Whence.seekStart < 0 := by
      simp [Model.seekTarget]; omega
    have hlen : B.length ≤ (Model.seekTarget ⟨B, 0⟩ o Model.Whence.seekStart).toNat := by
      simp [Model.seekTarget]; omega
    have hdrop :
        B.drop (Model.seekTarget ⟨B, 0⟩ o Model.Whence.seekStart).toNat = [] :=
      List.drop_eq_nil_of_le hlen
    rw [Model.seek, if_neg hnot]
    simp [Except.map, Model.read, hdrop, hlen]
  · intro h off w hneg
    rw [Model.seek, if_pos hneg]

/-- C4 witness: at `B = [5,6,7]` the three clauses hold concretely at seek
offset `1`, at the past-the-end offset `9`, and at the negative resulting
offset `-3` from the start of a handle. -/
theorem seek_then_read_correct_witness :
    (Model.seek ⟨[5, 6, 7], 0⟩ 1 Model.Whence.seekStart).map Model.readToEnd =
      Except.ok ([5, 6, 7].drop (1 : Int).toNat) ∧
    (Model.seek ⟨[5, 6, 7], 0⟩ 9 Model.Whence.seekStart).map
        (fun h => ((Model.read h 4).1, (Model.read h 4).2.1)) =
      Except.ok ([], true) ∧
    Model.seek ⟨[5], 0⟩ (-3) Model.Whence.seekStart =
      Except.error Model.Err.invalidArgument :=
  ⟨(seek_then_read_correct [5, 6, 7] 1).1 (by decide) (by decide),
   (seek_then_read_correct [5, 6, 7] 9).2.1 (by decide) 4,
   (seek_then_read_correct [] 0).2.2 ⟨[5], 0⟩ (-3) Model.Whence.seekStart (by decide)⟩

/-- A successful `Remove` yields the canonical removed state. -/
theorem remove_ok_shape (s s' : Model.BackendState)
    (h : Model.Remove s = Except.ok s') :
    s' = ⟨Model.Phase.removed, [], []⟩ := by
  cases hs : s.phase <;> simp [Model.Remove, hs] at h <;> exact h.symm

/-- Every operation applied to a removed instance fails, so the state is
unchanged. -/
theorem applyOp_removed (s : Model.BackendState) (op : Model.Op)
    (h : s.phase = Model.Phase.removed) : Model.applyOp s op = s := by
  cases op <;> simp [Model.applyOp, Model.step, Model.Create, Model.write,
    Model.closeWriter, Model.Remove, h]

/-- No sequence of operations changes a removed instance. -/
theorem runOps_removed_eq (ops : List Model.Op) (s : Model.BackendState)
    (h : s.phase = Model.Phase.removed) : Model.runOps ops s = s := by
  induction ops with
  | nil => rfl
  | cons op ops ih =>
    simp only [Model.runOps, List.foldl_cons] at ih ⊢
    rw [applyOp_removed s op h]
    exact ih

/-- C5: after a successful `Remove`, the instance is in the terminal state
`REMOVED`, and after any further sequence of operations every `Open`,
`OpenReaderAt` and `OpenSeeker` call fails with not-found — the location
never becomes readable again. -/
theorem remove_terminal (s s' : Model.BackendState) (ops : List Model.Op)
    (hrem : Model.Remove s = Except.ok s') :
    s'.phase = Model.Phase.removed ∧
    Model.Open (Model.runOps ops s') = Except.error Model.Err.notFound ∧
    Model.OpenReaderAt (Model.runOps ops s') = Except.error Model.Err.notFound ∧
    Model.OpenSeeker (Model.runOps ops s') = Except.error Model.Err.notFound := by
  have hsh := remove_ok_shape s s' hrem
  subst hsh
  rw [runOps_removed_eq ops _ rfl]
  exact ⟨rfl, rfl, rfl, rfl⟩

/-- C5 witness: removing a readable instance holding the byte `1` and then
attempting a `Create` leaves every open operation failing not-found. -/
theorem remove_terminal_witness :
    (⟨Model.Phase.removed, [], []⟩ : Model.BackendState).phase =
      Model.Phase.removed ∧
    Model.Open (Model.runOps [Model.Op.createOp] ⟨Model.Phase.removed, [], []⟩) =
      Except.error Model.Err.notFound ∧
    Model.OpenReaderAt
        (Model.runOps [Model.Op.createOp] ⟨Model.Phase.removed, [], []⟩) =
      Except.error Model.Err.notFound ∧
    Model.OpenSeeker
        (Model.runOps [Model.Op.createOp] ⟨Model.Phase.removed, [], []⟩) =
      Except.error Model.Err.notFound :=
  remove_terminal ⟨Model.Phase.readable, [1], [1]⟩ _ [Model.Op.createOp] rfl

/-- C6: the four-state lifecycle: `Create` succeeds exactly in `UNCREATED`
and moves to `WRITING`; closing the write handle moves `WRITING` to
`READABLE`; the three open operations succeed exactly in `READABLE`,
failing not-found before any `Create` or after `Remove` and not-ready
while the write handle is open; `Remove` is valid in `WRITING` or
`READABLE` and transitions to the terminal `REMOVED`. -/
theorem lifecycle_state_machine (s : Model.BackendState) :
    (s.phase = Model.Phase.uncreated →
      Model.Create s = Except.ok ⟨Model.Phase.writing, [], s.content⟩) ∧
    (s.phase ≠ Model.Phase.uncreated →
      Model.Create s = Except.error Model.Err.alreadyCreated) ∧
    (s.phase = Model.Phase.writing →
      Model.closeWriter s = Except.ok ⟨Model.Phase.readable, s.buffer, s.buffer⟩) ∧
    (s.phase = Model.Phase.readable →
      Model.Open s = Except.ok ⟨s.content, 0⟩ ∧
      Model.OpenReaderAt s = Except.ok ⟨s.content⟩ ∧
      Model.OpenSeeker s = Except.ok ⟨s.content, 0⟩) ∧
    (s.phase = Model.Phase.uncreated →
      Model.Open s = Except.error Model.Err.notFound ∧
      Model.OpenReaderAt s = Except.error Model.Err.notFound ∧
      Model.OpenSeeker s = Except.error Model.Err.notFound) ∧
    (s.phase = Model.Phase.writing →
      Model.Open s = Except.error Model.Err.notReady ∧
      Model.OpenReaderAt s = Except.error Model.Err.notReady ∧
      Model.OpenSeeker s = Except.error Model.Err.notReady) ∧
    ((s.phase = Model.Phase.writing ∨ s.phase = Model.Phase.readable) →
      Model.Remove s = Except.ok ⟨Model.Phase.removed, [], []⟩) ∧
    (s.phase = Model.Phase.removed →
      Model.Remove s = Except.error Model.Err.notFound ∧
      Model.Open s = Except.error Model.Err.notFound) := by
  obtain ⟨ph, buf, con⟩ := s
  cases ph <;>
    simp [Model.Create, Model.closeWriter, Model.Open, Model.OpenReaderAt,
      Model.OpenSeeker, Model.Remove]

/-- C6 witness: the lifecycle transitions at concrete states: a fresh
instance accepts `Create`, a writing instance holding `[2]` closes into a
readable one, a readable instance opens at offset zero, opening too early
fails not-found or not-ready, and `Remove` from readable reaches
`REMOVED`. -/
theorem lifecycle_state_machine_witness :
    Model.Create ⟨Model.Phase.uncreated, [], []⟩ =
      Except.ok ⟨Model.Phase.writing, [], []⟩ ∧
    Model.closeWriter ⟨Model.Phase.writing, [2], []⟩ =
      Except.ok ⟨Model.Phase.readable, [2], [2]⟩ ∧
    Model.Open ⟨Model.Phase.readable, [2], [2]⟩ = Except.ok ⟨[2], 0⟩ ∧
    Model.Open ⟨Model.Phase.uncreated, [], []⟩ =
      Except.error Model.Err.notFound ∧
    Model.Open ⟨Model.Phase.writing, [2], []⟩ =
      Except.error Model.Err.notReady ∧
    Model.Remove ⟨Model.Phase.readable, [2], [2]⟩ =
      Except.ok ⟨Model.Phase.removed, [], []⟩ :=
  ⟨(lifecycle_state_machine ⟨Model.Phase.uncreated, [], []⟩).1 rfl,
   (lifecycle_state_machine ⟨Model.Phase.writing, [2], []⟩).2.2.1 rfl,
   ((lifecycle_state_machine ⟨Model.Phase.readable, [2], [2]⟩).2.2.2.1 rfl).1,
   ((lifecycle_state_machine ⟨Model.Phase.uncreated, [], []⟩).2.2.2.2.1 rfl).1,
   ((lifecycle_state_machine ⟨Model.Phase.writing, [2], []⟩).2.2.2.2.2.1 rfl).1,
   (lifecycle_state_machine ⟨Model.Phase.readable, [2], [2]⟩).2.2.2.2.2.2.1
     (Or.inr rfl)⟩

/-- A single read step preserves the reader invariant: the bytes a handle
has collected are exactly the prefix of `B` up to its cursor. -/
theorem readStep_preserves (B : List Nat) (h : Nat × List Nat) (n : Nat)
    (hg : h.2 = B.take h.1) :
    (Model.readStep B h n).2 = B.take (Model.readStep B h n).1 := by
  obtain ⟨p, out⟩ := h
  simp only at hg
  simp only [Model.readStep]
  rw [hg, List.take_add]
  congr 1
  rw [List.length_take]
  exact (List.take_eq_take.mpr (by omega)).symm

/-- Any interleaved schedule of read steps preserves the reader invariant
for every handle in the pool. -/
theorem runSched_preserves (B : List Nat) (sched : List (Nat × Nat)) :
    ∀ hs : List (Nat × List Nat), (∀ h ∈ hs, h.2 = B.take h.1) →
      ∀ h ∈ Model.runSched B hs sched, h.2 = B.take h.1 := by
  induction sched with
  | nil => intro hs hinv h hmem; exact hinv h hmem
  | cons q sched ih =>
    intro hs hinv h hmem
    simp only [Model.runSched, List.foldl_cons] at hmem
    refine ih (hs.set q.1 (Model.readStep B (hs.getD q.1 (0, [])) q.2)) ?_ h hmem
    intro h2 hmem2
    rcases List.mem_or_eq_of_mem_set hmem2 with hin | heq
    · exact hinv h2 hin
    · subst heq
      refine readStep_preserves B _ q.2 ?_
      by_cases hq : q.1 < hs.length
      · rw [List.getD_eq_getElem _ _ hq]
        exact hinv _ (List.getElem_mem hq)
      · rw [List.getD_eq_default _ _ (by omega)]
        rfl

/-- C8: independent read handles over the same content `B`, driven by an
arbitrary interleaving of read steps, never corrupt each other: every
handle's collected bytes are exactly the prefix of `B` up to its own
cursor, and a handle whose cursor has reached the end has reproduced
exactly `B`. -/
theorem concurrent_reads_independent (B : List Nat) (N : Nat)
    (sched : List (Nat × Nat)) :
    ∀ h ∈ Model.runSched B (List.replicate N ((0 : Nat), ([] : List Nat))) sched,
      h.2 = B.take h.1 ∧ (B.length ≤ h.1 → h.2 = B) := by
  intro h hmem
  have hg : h.2 = B.take h.1 := by
    refine runSched_preserves B sched _ ?_ h hmem
    intro h2 hmem2
    rw [List.eq_of_mem_replicate hmem2]
    rfl
  refine ⟨hg, fun hle => ?_⟩
  rw [hg, List.take_of_length_le hle]

/-- C8 witness: two readers over `B = [1,2,3]`, interleaved as reader 0
taking two bytes, reader 1 one byte, reader 0 five, reader 1 ten: both end
with cursor 3 having reproduced exactly `B`. -/
theorem concurrent_reads_independent_witness :
    (((3 : Nat), [1, 2, 3]) : Nat × List Nat).2 =
      [1, 2, 3].take (((3 : Nat), [1, 2, 3]) : Nat × List Nat).1 ∧
    ([1, 2, 3].length ≤ (((3 : Nat), [1, 2, 3]) : Nat × List Nat).1 →
      (((3 : Nat), [1, 2, 3]) : Nat × List Nat).2 = [1, 2, 3]) :=
  concurrent_reads_independent [1, 2, 3] 2 [(0, 2), (1, 1), (0, 5), (1, 10)]
    (3, [1, 2, 3]) (by decide)
